import Mathlib

/-!
Verification development for the datapipe incremental batch-processing engine.

Shallow embedding of the change-tracking kernel:
* `storeChunk` / `syncMeta` embed `DataTable.store_chunk` and `DataTable.sync_meta`
  from `c12n_pipe/datatable.py`.
* `emittedSqlite` / `emittedPg` / `stalePred` embed the change-set planner SQL of
  `BaseBatchTransformStep._build_changed_idx_sql` in `datapipe/core_steps.py`.
* `processBatch` embeds `ComputeStep.process_batch` from `datapipe/compute.py`.
* `runStepsChangelistIters` embeds the loop of `run_steps_changelist` in
  `datapipe/compute.py`.
* `getFullProcessIds` / `getChangeListProcessIds` embed the two planner entry
  points of `BaseBatchTransformStep` in `datapipe/core_steps.py`.
* `computeTransformSchema` embeds `BaseBatchTransformStep.compute_transform_schema`.
* `insertRowsFiledir` / `deleteRowsFiledir` embed `TableStoreFiledir` from
  `datapipe/store/filedir.py`.

Primary keys are modelled as `Nat`, the single data column as `Int`, timestamps
as `Int`, and the pandas content hash as an explicit function parameter.
-/

set_option autoImplicit false

/-- Row of a per-table metadata sidecar: content hash plus the four lifecycle
timestamps (`METADATA_SQL_SCHEMA` in `c12n_pipe/datatable.py`). -/
structure MetaRow where
  hash : Int
  create_ts : Int
  update_ts : Int
  process_ts : Int
  delete_ts : Option Int
deriving DecidableEq

/-- Row of the per-step transform metadata table
(`process_ts`, `is_success`, `priority`). -/
structure TransformRow where
  process_ts : Int
  is_success : Bool
  priority : Int
deriving DecidableEq

/-- Upsert by key into an association list: replace the first binding of `k`
if present, otherwise append. Models update_rows / delete-and-insert by
primary key. -/
def upsertRow {κ α : Type} [DecidableEq κ] (k : κ) (v : α) :
    List (κ × α) → List (κ × α)
  | [] => [(k, v)]
  | (k', v') :: t => if k' = k then (k, v) :: t else (k', v') :: upsertRow k v t

/-- State of one data table: the data store rows and the meta sidecar rows,
both keyed by primary key. -/
structure TableState where
  data : List (Nat × Int)
  meta : List (Nat × MetaRow)
deriving DecidableEq

/-- Fresh metadata row built by `DataTable._make_new_metadata_df`: hash of the
row values and all three live timestamps set to `now`, `delete_ts` null. -/
def makeNewMetaRow (hashFn : Int → Int) (now : Int) (v : Int) : MetaRow :=
  { hash := hashFn v, create_ts := now, update_ts := now, process_ts := now,
    delete_ts := none }

/-- Metadata row written by `DataTable.store_chunk` for one chunk row, given the
existing meta row for the same key (if any). Mirrors lines 102-130 of
`c12n_pipe/datatable.py`: the fresh row from `_make_new_metadata_df`, with
`create_ts` carried forward exactly on `changed_idx` (hash differs) and
`update_ts` carried forward exactly on `not_changed_idx` (hash equal). -/
def storeChunkMetaRow (hashFn : Int → Int) (now : Int) (existing : Option MetaRow)
    (v : Int) : MetaRow :=
  match existing with
  | none => makeNewMetaRow hashFn now v
  | some m =>
    if hashFn v ≠ m.hash then
      { makeNewMetaRow hashFn now v with create_ts := m.create_ts }
    else
      { makeNewMetaRow hashFn now v with update_ts := m.update_ts }

/-- Embedding of `DataTable.store_chunk` (`c12n_pipe/datatable.py` lines 92-132):
data rows are upserted for new or changed keys only; meta rows for every chunk
key are deleted and re-inserted from the fresh frame with the carry-forwards of
`storeChunkMetaRow`. -/
def storeChunk (hashFn : Int → Int) (now : Int) (chunk : List (Nat × Int))
    (s : TableState) : TableState :=
  let isChangedOrNew : Nat × Int → Bool := fun p =>
    match s.meta.lookup p.1 with
    | some m => hashFn p.2 != m.hash
    | none => true
  let toWrite := chunk.filter isChangedOrNew
  { data := toWrite.foldl (fun d p => upsertRow p.1 p.2 d) s.data,
    meta := chunk.foldl
      (fun mt p => upsertRow p.1 (storeChunkMetaRow hashFn now (s.meta.lookup p.1) p.2) mt)
      s.meta }

/-- Union of the key chunks accumulated during a pass, as in the first loop of
`DataTable.sync_meta`. -/
def chunksUnion (chunks : List (List Nat)) : List Nat :=
  chunks.foldl (fun acc c => acc ++ c.filter (fun k => !acc.contains k)) []

/-- Embedding of `DataTable.sync_meta` (`c12n_pipe/datatable.py` lines 134-148):
keys present in meta (restricted to `processed_idx` when given) but absent from
the synced chunks are removed from the data store and removed from the meta
store. -/
def syncMeta (chunks : List (List Nat)) (processed_idx : Option (List Nat))
    (s : TableState) : TableState :=
  let idx := chunksUnion chunks
  let existingKeys :=
    match processed_idx with
    | none => s.meta.map Prod.fst
    | some p => (s.meta.filter (fun q : Nat × MetaRow => p.contains q.1)).map Prod.fst
  let deleted := existingKeys.filter (fun k => !idx.contains k)
  { data := s.data.filter (fun p => !deleted.contains p.1),
    meta := s.meta.filter (fun p => !deleted.contains p.1) }

/-- Per-input aggregation CTE of `_build_changed_idx_sql`: group the input meta
rows by key and take the maximal `update_ts`; `none` when the key is absent. -/
def aggMax (tbl : List (Nat × Int)) (k : Nat) : Option Int :=
  (tbl.filter (fun p => p.1 = k)).foldl
    (fun acc p =>
      match acc with
      | none => some p.2
      | some m => some (max m p.2))
    none

/-- Combination of the per-input aggregates when the backend `greatest` ignores
null arguments (PostgreSQL): the maximum of `update_ts` over all inputs that
have the key; `none` when no input has it. This also equals the maximum of
`update_ts` over all input meta rows matching the key. -/
def pgMax : List (List (Nat × Int)) → Nat → Option Int
  | [], _ => none
  | t :: ts, k =>
    match aggMax t k, pgMax ts k with
    | none, r => r
    | some u, none => some u
    | some u, some m => some (max u m)

/-- Membership of a key in at least one of the per-input aggregates; this is
when the full outer join of the input CTEs produces a row for the key. -/
def inputRowPresent (inputs : List (List (Nat × Int))) (k : Nat) : Bool :=
  inputs.any (fun t => (aggMax t k).isSome)

/-- Combination of the per-input aggregates on the sqlite driver, where the
code substitutes the scalar `max` for `greatest`. Outer value: whether the
joined row exists; inner value: the aggregated `update_ts`, which sqlite `max`
turns into null as soon as any joined input lacks the key (with two or more
inputs). A single input CTE is returned unwrapped by `_make_agg_of_agg`. -/
def sqliteAgg (inputs : List (List (Nat × Int))) (k : Nat) : Option (Option Int) :=
  match inputs with
  | [] => none
  | [t] => (aggMax t k).map some
  | _ =>
    if inputRowPresent inputs k then
      some (if inputs.all (fun t => (aggMax t k).isSome) then pgMax inputs k else none)
    else
      none

/-- Emission predicate of the final select of `_build_changed_idx_sql` under
sqlite semantics: full outer join of the combined input aggregate with the
transform meta table, filtered by the where-clause
`(is_success = true AND update_ts > process_ts) OR is_success != true OR
process_ts IS NULL` with SQL three-valued logic (a comparison against null is
unknown, hence not emitted). -/
def emittedSqlite (inputs : List (List (Nat × Int)))
    (tmeta : List (Nat × TransformRow)) (k : Nat) : Bool :=
  match sqliteAgg inputs k, tmeta.lookup k with
  | none, none => false
  | some _, none => true
  | none, some t => !t.is_success
  | some uo, some t =>
    (t.is_success &&
      (match uo with
       | some u => decide (t.process_ts < u)
       | none => false)) || !t.is_success

/-- Emission predicate of the same select when the combined aggregate follows
the PostgreSQL `greatest` semantics (null arguments ignored). -/
def emittedPg (inputs : List (List (Nat × Int)))
    (tmeta : List (Nat × TransformRow)) (k : Nat) : Bool :=
  match pgMax inputs k, tmeta.lookup k with
  | none, none => false
  | some _, none => true
  | none, some t => !t.is_success
  | some u, some t =>
    (t.is_success && decide (t.process_ts < u)) || !t.is_success

/-- Stale predicate of the claim: the transform-meta row is absent, or its
`is_success` is not true, or `is_success` is true and the maximum `update_ts`
over the matching input meta rows is strictly greater than `process_ts`.
Ranges over the keys known to some input meta table or to the transform meta
table. -/
def stalePred (inputs : List (List (Nat × Int)))
    (tmeta : List (Nat × TransformRow)) (k : Nat) : Bool :=
  (inputRowPresent inputs k || (tmeta.lookup k).isSome) &&
  match tmeta.lookup k with
  | none => true
  | some t =>
    !t.is_success ||
      (t.is_success &&
        (match pgMax inputs k with
         | some u => decide (t.process_ts < u)
         | none => false))

/-- One output table of a compute step: a name, its data rows and its meta
sidecar rows. -/
structure OutTable where
  name : String
  data : List (Nat × Int)
  meta : List (Nat × MetaRow)
deriving DecidableEq

/-- Modelled from the spec: `MetaTable.get_existing_idx` (the class lives in
`datapipe/metastore.py`, which is absent from src/) returns the subset of the
given index actually present in meta with `delete_ts IS NULL`. -/
def getExistingIdx (meta : List (Nat × MetaRow)) (idx : List Nat) : List Nat :=
  idx.filter (fun k =>
    match meta.lookup k with
    | some m => m.delete_ts.isNone
    | none => false)

/-- Modelled from the spec: `DataTable.delete_by_idx` (the class lives in
`datapipe/datatable.py`, which is absent from src/) removes the listed rows
from the data store and tombstones their meta rows by setting `delete_ts`. -/
def deleteByIdx (now : Int) (idx : List Nat) (t : OutTable) : OutTable :=
  { t with
    data := t.data.filter (fun p => !idx.contains p.1),
    meta := t.meta.map (fun p =>
      if idx.contains p.1 then (p.1, { p.2 with delete_ts := some now }) else p) }

/-- Embedding of `ComputeStep.process_batch` (`datapipe/compute.py` lines
143-220) after the input frames have been fetched. When the fetched frames hold
at least one row the transform-and-store branch runs (abstracted as
`storeBranch`, since `DataTable.store_chunk` of `datapipe/datatable.py` is
absent from src/); otherwise, for each output, the live subset of the batch
index is deleted and recorded in the change list. The transform meta `tmeta` is
returned untouched on both branches, as in the source. -/
def processBatch (now : Int) (idx : List Nat) (inputDfs : List (List (Nat × Int)))
    (storeBranch : List OutTable → List OutTable × List (String × List Nat))
    (outputs : List OutTable) (tmeta : List (Nat × TransformRow)) :
    List OutTable × List (String × List Nat) × List (Nat × TransformRow) :=
  if 0 < (inputDfs.map List.length).sum then
    let res := storeBranch outputs
    (res.1, res.2, tmeta)
  else
    (outputs.map (fun o => deleteByIdx now (getExistingIdx o.meta idx) o),
     outputs.map (fun o => (o.name, getExistingIdx o.meta idx)),
     tmeta)

/-- Change list: mapping from table name to a set of primary keys, kept as an
association list. -/
abbrev ChangeList := List (String × List Nat)

/-- Modelled from the spec: `ChangeList.append` unions the rows for the given
table name (`datapipe/types.py` of this snapshot lacks the class). -/
def clAppend (cl : ChangeList) (name : String) (idx : List Nat) : ChangeList :=
  match cl.lookup name with
  | none => cl ++ [(name, idx)]
  | some old => upsertRow name (old ++ idx.filter (fun k => !old.contains k)) cl

/-- Modelled from the spec: `ChangeList.extend` appends every entry of the
second change list into the first. -/
def clExtend (a b : ChangeList) : ChangeList :=
  b.foldl (fun acc p => clAppend acc p.1 p.2) a

/-- Emptiness test of a change list (`ChangeList.empty`). -/
def clEmpty (cl : ChangeList) : Bool :=
  cl.isEmpty

/-- One iteration body of `run_steps_changelist`: every step consumes the
current change list and its resulting changes are merged into the accumulator
for the next iteration. Step behaviour (`ComputeStep.run_changelist`) is kept
abstract as a function from change list to change list. -/
def nextChanges (steps : List (ChangeList → ChangeList)) (cur : ChangeList) :
    ChangeList :=
  steps.foldl (fun acc step => clExtend acc (step cur)) []

/-- Change list reached after `n` iterations of the driver loop. -/
def iterCL (steps : List (ChangeList → ChangeList)) : Nat → ChangeList → ChangeList
  | 0, cur => cur
  | n + 1, cur => iterCL steps n (nextChanges steps cur)

/-- Number of loop iterations executed by `run_steps_changelist`
(`datapipe/compute.py` lines 358-386) given the remaining iteration budget:
the loop runs while the current change list is non-empty and the iteration
counter is below the budget (100 in the source). -/
def runStepsChangelistIters (steps : List (ChangeList → ChangeList)) :
    Nat → ChangeList → Nat
  | 0, _ => 0
  | fuel + 1, cur =>
    if clEmpty cur then 0
    else runStepsChangelistIters steps fuel (nextChanges steps cur) + 1

/-- Ceiling division on naturals, as `math.ceil(a / b)` computes it for
non-negative integers. -/
def ceilDivNat (a b : Nat) : Nat :=
  (a + b - 1) / b

/-- Batching used by both planner entry points: slice `i*n .. (i+1)*n` for `i`
below `ceil(len/n)`, as in the generator of `get_change_list_process_ids` and
in the chunked SQL reads of `get_full_process_ids`. -/
def batchify (xs : List Nat) (n : Nat) : List (List Nat) :=
  (List.range (ceilDivNat xs.length n)).map (fun i => (xs.drop (i * n)).take n)

/-- Deduplication keeping the first occurrence, fuelled by the list length. -/
def dedupFirstAux : Nat → List Nat → List Nat
  | 0, _ => []
  | _, [] => []
  | fuel + 1, x :: xs => x :: dedupFirstAux fuel (xs.filter (fun y => y ≠ x))

/-- Deduplication keeping the first occurrence, as
`pandas.DataFrame.drop_duplicates` does. -/
def dedupFirst (l : List Nat) : List Nat :=
  dedupFirstAux l.length l

/-- Embedding of `BaseBatchTransformStep.get_full_process_ids`
(`datapipe/core_steps.py` lines 428-476): with no input tables the pair
`(0, [])` is returned; otherwise the candidate keys of the changed-idx SQL are
counted and streamed in chunks of `chunk` keys, and the first component is
`ceil(count / chunk)`. -/
def getFullProcessIds (hasInputs : Bool) (candidates : List Nat) (chunk : Nat) :
    Nat × List (List Nat) :=
  if hasInputs then (ceilDivNat candidates.length chunk, batchify candidates chunk)
  else (0, [])

/-- Embedding of `BaseBatchTransformStep.get_change_list_process_ids`
(`datapipe/core_steps.py` lines 478-501): concatenate the change-list entries
of the input tables, deduplicate, and batch; the first component returned is
the number of candidate keys. -/
def getChangeListProcessIds (changes : ChangeList) (inputNames : List String)
    (chunk : Nat) : Nat × List (List Nat) :=
  let idx := dedupFirst ((inputNames.filterMap (fun n => changes.lookup n)).flatten)
  (idx.length, batchify idx chunk)

/-- Intersection of two lists of column names, as membership filter. -/
def interList (xs ys : List String) : List String :=
  xs.filter (fun s => decide (s ∈ ys))

/-- Intersection of a family of primary-key column lists,
`set.intersection(*sets)` over a non-empty family. -/
def interAll : List (List String) → List String
  | [] => []
  | x :: rest => rest.foldl interList x

/-- Embedding of `BaseBatchTransformStep.compute_transform_schema`
(`datapipe/core_steps.py` lines 211-248), key computation only: explicit
transform keys are taken as given; otherwise the intersections over input
primary keys, over output primary keys (when outputs exist) and between the two
are formed, each guarded by an assertion that it is non-empty (`none` models a
failed assertion aborting step construction). -/
def computeTransformSchema (input_pks : List (List String))
    (output_pks : List (List String)) (tk : Option (List String)) :
    Option (List String) :=
  match tk with
  | some ks => some ks
  | none =>
    if input_pks.isEmpty then none
    else
      let inp := interAll input_pks
      if inp.isEmpty then none
      else if output_pks.isEmpty then some inp
      else
        let out := interAll output_pks
        if out.isEmpty then none
        else
          let io := interList inp out
          if io.isEmpty then none else some io

/-- State of a `TableStoreFiledir`: the readonly and enable_rm flags fixed at
construction and the current directory contents keyed by primary key. -/
structure Filedir where
  readonly : Bool
  enable_rm : Bool
  files : List (Nat × Int)
deriving DecidableEq

/-- Embedding of the `TableStoreFiledir` constructor logic for the readonly
flag (`datapipe/store/filedir.py` lines 162-172): a `*` wildcard in the
pattern forces readonly (and rejects an explicit `readonly=False`), otherwise
an unspecified flag defaults to writable. -/
def mkTableStoreFiledir (hasStar : Bool) (ro : Option Bool) (enable_rm : Bool)
    (files : List (Nat × Int)) : Except String Filedir :=
  if hasStar then
    match ro with
    | some false => .error "glob pattern incompatible with writable store"
    | _ => .ok { readonly := true, enable_rm := enable_rm, files := files }
  else
    .ok { readonly := ro.getD false, enable_rm := enable_rm, files := files }

/-- Embedding of `TableStoreFiledir.insert_rows` (`datapipe/store/filedir.py`
lines 251-268): an empty frame returns at once; otherwise a readonly store
fails the assertion before any file is written; otherwise every row is written
to its templated path (upsert by key). -/
def insertRowsFiledir (s : Filedir) (df : List (Nat × Int)) : Except String Filedir :=
  if df.isEmpty then .ok s
  else if s.readonly then .error "assertion failed: not readonly"
  else .ok { s with files := df.foldl (fun fs p => upsertRow p.1 p.2 fs) s.files }

/-- Modelled from the spec: `TableStore.update_rows` (the base class file
`datapipe/store/table_store.py` is absent from src/) performs the same upsert
by primary key as `insert_rows`; for the filedir store writing a row file
overwrites any previous file of the same key. -/
def updateRowsFiledir (s : Filedir) (df : List (Nat × Int)) : Except String Filedir :=
  insertRowsFiledir s df

/-- Embedding of `TableStoreFiledir.delete_rows` (`datapipe/store/filedir.py`
lines 208-218): when `enable_rm` is off the call returns silently without
touching anything; otherwise a readonly store fails the assertion; otherwise
the listed files are removed. -/
def deleteRowsFiledir (s : Filedir) (idx : List Nat) : Except String Filedir :=
  if !s.enable_rm then .ok s
  else if s.readonly then .error "assertion failed: not readonly"
  else .ok { s with files := s.files.filter (fun p => !idx.contains p.1) }

/-- Empty table used by the ingest scenarios. -/
def emptyTable : TableState :=
  { data := [], meta := [] }

/-- First ingest: the chunk holding the single row `(0, 5)` stored at time 1. -/
def ingestOnce : TableState :=
  storeChunk id 1 [(0, 5)] emptyTable

/-- Second ingest of the exact same chunk at the later time 2. -/
def ingestTwice : TableState :=
  storeChunk id 2 [(0, 5)] ingestOnce

/-- Table with two live rows, input of the `syncMeta` deletion scenario. -/
def syncTable : TableState :=
  { data := [(0, 10), (1, 11)],
    meta := [(0, ⟨10, 1, 1, 1, none⟩), (1, ⟨11, 1, 1, 1, none⟩)] }

/-- Planner scenario: two input tables; key 0 appears only in the first input
with `update_ts = 5`, key 1 only in the second with `update_ts = 3`. -/
def plannerInputs : List (List (Nat × Int)) :=
  [[(0, 5)], [(1, 3)]]

/-- Planner scenario transform meta: key 0 processed successfully at time 1,
earlier than the input update at time 5. -/
def plannerTMeta : List (Nat × TransformRow) :=
  [(0, { process_ts := 1, is_success := true, priority := 0 })]

/-- Executor scenario: one output table with a single live row for key 0. -/
def execOutputs : List OutTable :=
  [{ name := "out", data := [(0, 7)], meta := [(0, ⟨7, 0, 0, 0, none⟩)] }]

/-- Executor scenario: transform-and-store branch that changes nothing, never
taken when all input frames are empty. -/
def execStoreBranch : List OutTable → List OutTable × List (String × List Nat) :=
  fun o => (o, [])

/-- Claim C1: the set of key tuples produced by the change-set planner equals
the set satisfying the stale predicate. Evaluated at the failing input: under
the sqlite driver branch of `_build_changed_idx_sql` (scalar `max` in place of
`greatest`), key 0 is stale (successful transform at time 1, input update at
time 5) yet is not emitted, because the full outer join row lacks a value from
the second input and sqlite `max` returns null as soon as one argument is
null; the PostgreSQL `greatest` branch does emit it. -/
theorem planner_sqlite_misses_stale_key :
    stalePred plannerInputs plannerTMeta 0 = true ∧
    emittedSqlite plannerInputs plannerTMeta 0 = false ∧
    emittedPg plannerInputs plannerTMeta 0 = true := by
  decide

/-- Claim C2: `store_chunk` carries the existing `create_ts` forward for every
common row. Evaluated at the failing input: re-ingesting the identical row at
time 2 rewrites its `create_ts` from 1 to 2, because lines 127-128 of
`c12n_pipe/datatable.py` carry `create_ts` forward only for `changed_idx`,
not for all common rows. -/
theorem store_chunk_resets_create_ts_for_unchanged :
    (ingestOnce.meta.lookup 0).map MetaRow.create_ts = some 1 ∧
    (ingestTwice.meta.lookup 0).map MetaRow.create_ts = some 2 := by
  decide

/-- Claim C3: every live meta row satisfies `create_ts ≤ update_ts ≤
process_ts` after each ingest. Evaluated at the failing input: after
re-ingesting an unchanged row at time 2 its meta row is live with
`create_ts = 2 > update_ts = 1`. -/
theorem store_chunk_breaks_create_le_update :
    ∃ m : MetaRow, ingestTwice.meta.lookup 0 = some m ∧
      m.delete_ts = none ∧ m.update_ts < m.create_ts :=
  ⟨{ hash := 5, create_ts := 2, update_ts := 1, process_ts := 2, delete_ts := none },
    by decide⟩

/-- Claim C4: ingesting the exact same chunk twice leaves hash and `update_ts`
unchanged and only `process_ts` may advance. Evaluated at the failing input:
hash and `update_ts` are indeed unchanged, but `create_ts` advances from 1 to
2 as well. -/
theorem reingest_advances_create_ts :
    ∃ m1 m2 : MetaRow,
      ingestOnce.meta.lookup 0 = some m1 ∧ ingestTwice.meta.lookup 0 = some m2 ∧
      m2.hash = m1.hash ∧ m2.update_ts = m1.update_ts ∧
      m2.process_ts ≠ m1.process_ts ∧ m2.create_ts ≠ m1.create_ts :=
  ⟨{ hash := 5, create_ts := 1, update_ts := 1, process_ts := 1, delete_ts := none },
   { hash := 5, create_ts := 2, update_ts := 1, process_ts := 2, delete_ts := none },
    by decide⟩

/-- Claim C5: a vanished row is tombstoned, the meta row being retained with
`delete_ts` set. Evaluated at the failing input: `sync_meta` over a table with
live keys 0 and 1 and a chunk covering only key 0 erases both the data row and
the meta row of key 1 (lines 147-148 of `c12n_pipe/datatable.py` delete from
the meta store), so no tombstone with `delete_ts` remains. -/
theorem sync_meta_erases_meta_rows :
    (syncMeta [[0]] none syncTable).meta.lookup 1 = none ∧
    (syncMeta [[0]] none syncTable).data.lookup 1 = none ∧
    (syncTable.meta.lookup 1).isSome = true := by
  decide

/-- Claim C6, counterexample: with every input frame empty, `process_batch`
does delete the live subset of the batch index from the output and does record
it in the change list, but it does not mark the batch as success in transform
meta — the returned transform meta is empty, so the conjunction claimed
(deletion, change-list entry, and success mark with `process_ts = now`) is
false at this concrete input. -/
theorem process_batch_empty_inputs_counterexample :
    ¬ ((processBatch 5 [0] [[]] execStoreBranch execOutputs []).1
          = execOutputs.map (fun o => deleteByIdx 5 (getExistingIdx o.meta [0]) o) ∧
       (processBatch 5 [0] [[]] execStoreBranch execOutputs []).2.1
          = [("out", [0])] ∧
       (∃ p ∈ (processBatch 5 [0] [[]] execStoreBranch execOutputs []).2.2,
          p.1 = 0 ∧ p.2.is_success = true ∧ p.2.process_ts = 5)) := by
  decide

/-- Claim C8, counterexample: `get_change_list_process_ids` over three
candidate keys with `chunk_size = 2` emits two batches but returns 3 — the
number of keys — as its first component, not `ceil(3 / 2) = 2` as the claim
states for both entry points. -/
theorem change_list_process_ids_count_counterexample :
    (getChangeListProcessIds [("a", [0, 1, 2])] ["a"] 2).1 = 3 ∧
    (getChangeListProcessIds [("a", [0, 1, 2])] ["a"] 2).2 = [[0, 1], [2]] ∧
    ceilDivNat 3 2 = 2 := by
  decide

/-- Claim C10, counterexample: a filedir store built from a globbed pattern is
readonly, yet with `enable_rm` left at its default `False` a `delete_rows`
call returns silently — it does not fail — leaving the stored rows unchanged. -/
theorem filedir_delete_rows_no_error_counterexample :
    mkTableStoreFiledir true none false [(0, 5)]
        = Except.ok { readonly := true, enable_rm := false, files := [(0, 5)] } ∧
    deleteRowsFiledir { readonly := true, enable_rm := false, files := [(0, 5)] } [0]
        = Except.ok { readonly := true, enable_rm := false, files := [(0, 5)] } :=
  ⟨rfl, rfl⟩

/-- Helper: the combined input aggregate under `greatest` semantics is present
for exactly the keys present in at least one per-input aggregate. -/
theorem pgMax_isSome (k : Nat) : ∀ inputs : List (List (Nat × Int)),
    (pgMax inputs k).isSome = inputRowPresent inputs k := by
  intro inputs
  induction inputs with
  | nil => rfl
  | cons t ts ih =>
    show (pgMax (t :: ts) k).isSome = ((aggMax t k).isSome || inputRowPresent ts k)
    rw [← ih]
    cases h1 : aggMax t k <;> cases h2 : pgMax ts k <;> simp [pgMax, h1, h2]

/-- Helper: under the PostgreSQL `greatest` branch the planner emits exactly
the keys satisfying the stale predicate of the claim. -/
theorem emittedPg_eq_stalePred (inputs : List (List (Nat × Int)))
    (tmeta : List (Nat × TransformRow)) (k : Nat) :
    emittedPg inputs tmeta k = stalePred inputs tmeta k := by
  have hpres := pgMax_isSome k inputs
  unfold emittedPg stalePred
  rw [← hpres]
  cases hpg : pgMax inputs k with
  | none =>
    cases ht : tmeta.lookup k with
    | none => simp
    | some t => cases t.is_success <;> simp
  | some u =>
    cases ht : tmeta.lookup k with
    | none => simp
    | some t => cases hs : t.is_success <;> simp [hs]

/-- Claim C6 (amended): in `process_batch`, when every fetched input frame is
empty, each output table has exactly the currently-live subset of the batch
index deleted, a change-list entry with those keys is appended per output, and
the transform meta is returned unchanged (the source advances no transform
meta inside `process_batch`). -/
theorem process_batch_empty_inputs_amended :
    ∀ (now : Int) (idx : List Nat) (inputDfs : List (List (Nat × Int)))
      (storeBranch : List OutTable → List OutTable × List (String × List Nat))
      (outputs : List OutTable) (tmeta : List (Nat × TransformRow)),
      (∀ df ∈ inputDfs, df = []) →
      processBatch now idx inputDfs storeBranch outputs tmeta
        = (outputs.map (fun o => deleteByIdx now (getExistingIdx o.meta idx) o),
           outputs.map (fun o => (o.name, getExistingIdx o.meta idx)),
           tmeta) := by
  intro now idx inputDfs storeBranch outputs tmeta h
  have hz : (inputDfs.map List.length).sum = 0 := by
    apply List.sum_eq_zero
    intro x hx
    rcases List.mem_map.mp hx with ⟨df, hdf, rfl⟩
    simp [h df hdf]
  simp [processBatch, hz]

/-- Witness for C6 (amended), at the concrete executor scenario. -/
theorem process_batch_empty_inputs_amended_witness :
    processBatch 5 [0] [[]] execStoreBranch execOutputs []
      = (execOutputs.map (fun o => deleteByIdx 5 (getExistingIdx o.meta [0]) o),
         execOutputs.map (fun o => (o.name, getExistingIdx o.meta [0])),
         []) :=
  process_batch_empty_inputs_amended 5 [0] [[]] execStoreBranch execOutputs []
    (by intro df hdf; simpa using hdf)

/-- Helper: behaviour of the `run_steps_changelist` loop for an arbitrary
iteration budget: the iteration count never exceeds the budget, stopping below
the budget happens exactly at an empty accumulated change list, and every
iteration actually performed started from a non-empty change list. -/
theorem runStepsChangelistIters_spec (steps : List (ChangeList → ChangeList)) :
    ∀ (fuel : Nat) (cur : ChangeList),
      runStepsChangelistIters steps fuel cur ≤ fuel ∧
      (runStepsChangelistIters steps fuel cur < fuel →
        clEmpty (iterCL steps (runStepsChangelistIters steps fuel cur) cur) = true) ∧
      (∀ k, k < runStepsChangelistIters steps fuel cur →
        clEmpty (iterCL steps k cur) = false) := by
  intro fuel
  induction fuel with
  | zero =>
    intro cur
    exact ⟨Nat.le_refl 0, fun h => absurd h (Nat.lt_irrefl 0),
      fun k hk => absurd hk (Nat.not_lt_zero k)⟩
  | succ n ih =>
    intro cur
    by_cases hcur : clEmpty cur = true
    · have hrun : runStepsChangelistIters steps (n + 1) cur = 0 := by
        simp [runStepsChangelistIters, hcur]
      rw [hrun]
      exact ⟨Nat.zero_le _, fun _ => by simpa [iterCL] using hcur,
        fun k hk => absurd hk (Nat.not_lt_zero k)⟩
    · have hcur' : clEmpty cur = false := by simpa using hcur
      have hrun : runStepsChangelistIters steps (n + 1) cur
          = runStepsChangelistIters steps n (nextChanges steps cur) + 1 := by
        simp [runStepsChangelistIters, hcur']
      obtain ⟨ih1, ih2, ih3⟩ := ih (nextChanges steps cur)
      rw [hrun]
      refine ⟨Nat.succ_le_succ ih1, ?_, ?_⟩
      · intro hlt
        have h2 := ih2 (Nat.lt_of_succ_lt_succ hlt)
        simpa [iterCL] using h2
      · intro k hk
        cases k with
        | zero => simpa [iterCL] using hcur'
        | succ j => simpa [iterCL] using ih3 j (Nat.lt_of_succ_lt_succ hk)

/-- Claim C7: `run_steps_changelist` performs at most 100 iterations for every
seed change list and every list of steps, and it stops earlier exactly when
the change list accumulated for the next iteration is empty: whenever fewer
than 100 iterations are performed the change list at the stopping point is
empty, and every performed iteration started from a non-empty change list. -/
theorem run_steps_changelist_iteration_bound
    (steps : List (ChangeList → ChangeList)) (cur : ChangeList) :
    runStepsChangelistIters steps 100 cur ≤ 100 ∧
    (runStepsChangelistIters steps 100 cur < 100 →
      clEmpty (iterCL steps (runStepsChangelistIters steps 100 cur) cur) = true) ∧
    (∀ k, k < runStepsChangelistIters steps 100 cur →
      clEmpty (iterCL steps k cur) = false) :=
  runStepsChangelistIters_spec steps 100 cur

/-- Witness for C7: with no steps and a non-empty seed the loop performs one
iteration and stops on the empty accumulated change list. -/
theorem run_steps_changelist_iteration_bound_witness :
    clEmpty (iterCL [] (runStepsChangelistIters [] 100 [("a", [0])]) [("a", [0])])
      = true ∧
    clEmpty (iterCL [] 0 [("a", [0])]) = false :=
  ⟨(run_steps_changelist_iteration_bound [] [("a", [0])]).2.1 (by decide),
   (run_steps_changelist_iteration_bound [] [("a", [0])]).2.2 0 (by decide)⟩

/-- Claim C8 (amended): both planner entry points emit batches of at most
`chunk` keys, and the number of emitted batches is `ceil(total / chunk)`;
`get_full_process_ids` also returns that batch count as its first component,
while `get_change_list_process_ids` returns the total number of candidate keys
as its first component. -/
theorem process_ids_batching_amended :
    ∀ (candidates : List Nat) (chunk : Nat) (changes : ChangeList)
      (inputNames : List String),
      (getFullProcessIds true candidates chunk).1
          = ceilDivNat candidates.length chunk ∧
      (getFullProcessIds true candidates chunk).2.length
          = ceilDivNat candidates.length chunk ∧
      (∀ b ∈ (getFullProcessIds true candidates chunk).2, b.length ≤ chunk) ∧
      (getChangeListProcessIds changes inputNames chunk).1
          = (dedupFirst ((inputNames.filterMap
              (fun n => changes.lookup n)).flatten)).length ∧
      (getChangeListProcessIds changes inputNames chunk).2.length
          = ceilDivNat (getChangeListProcessIds changes inputNames chunk).1 chunk ∧
      (∀ b ∈ (getChangeListProcessIds changes inputNames chunk).2,
        b.length ≤ chunk) := by
  intro candidates chunk changes inputNames
  refine ⟨by simp [getFullProcessIds], by simp [getFullProcessIds, batchify], ?_,
    rfl, by simp [getChangeListProcessIds, batchify], ?_⟩
  · intro b hb
    simp only [getFullProcessIds, if_pos, batchify, List.mem_map,
      List.mem_range] at hb
    obtain ⟨i, _, rfl⟩ := hb
    simp [List.length_take]
  · intro b hb
    simp only [getChangeListProcessIds, batchify, List.mem_map,
      List.mem_range] at hb
    obtain ⟨i, _, rfl⟩ := hb
    simp [List.length_take]

/-- Witness for C8 (amended), at three candidate keys and chunk size two. -/
theorem process_ids_batching_amended_witness :
    ([0, 1] : List Nat) ∈ (getFullProcessIds true [0, 1, 2] 2).2 ∧
    ([0, 1] : List Nat).length ≤ 2 ∧
    ([2] : List Nat) ∈ (getChangeListProcessIds [("a", [0, 1, 2])] ["a"] 2).2 ∧
    ([2] : List Nat).length ≤ 2 :=
  ⟨by decide,
   (process_ids_batching_amended [0, 1, 2] 2 [("a", [0, 1, 2])] ["a"]).2.2.1
     [0, 1] (by decide),
   by decide,
   (process_ids_batching_amended [0, 1, 2] 2 [("a", [0, 1, 2])] ["a"]).2.2.2.2.2
     [2] (by decide)⟩

/-- Helper: membership in the binary column-name intersection. -/
theorem mem_interList {s : String} {xs ys : List String} :
    s ∈ interList xs ys ↔ s ∈ xs ∧ s ∈ ys := by
  simp [interList]

/-- Helper: membership in the intersection of a non-empty family of
primary-key column lists. -/
theorem mem_interAll {s : String} :
    ∀ (x : List String) (rest : List (List String)),
      s ∈ interAll (x :: rest) ↔ s ∈ x ∧ ∀ pk ∈ rest, s ∈ pk := by
  intro x rest
  induction rest generalizing x with
  | nil => simp [interAll]
  | cons y ys ih =>
    show s ∈ interAll (interList x y :: ys) ↔ _
    rw [ih (interList x y), mem_interList]
    simp [and_assoc]

/-- Helper: emptiness of the intersection of a non-empty family. -/
theorem interAll_eq_nil {x : List String} {rest : List (List String)} :
    interAll (x :: rest) = [] ↔ ¬ ∃ s, ∀ pk ∈ x :: rest, s ∈ pk := by
  rw [List.eq_nil_iff_forall_not_mem]
  constructor
  · rintro h ⟨s, hs⟩
    exact h s ((mem_interAll x rest).mpr ⟨hs x (List.mem_cons_self x rest),
      fun pk hpk => hs pk (List.mem_cons_of_mem x hpk)⟩)
  · intro h s hmem
    obtain ⟨h1, h2⟩ := (mem_interAll x rest).mp hmem
    refine h ⟨s, ?_⟩
    intro pk hpk
    rcases List.mem_cons.mp hpk with rfl | hpk
    · exact h1
    · exact h2 pk hpk

/-- Claim C9: with at least one input and at least one output and no explicit
transform keys, `compute_transform_schema` fails (returns no key list) exactly
when the intersection over input primary keys, the intersection over output
primary keys, or their intersection is empty; and any computed key list holds
exactly the column names present in every input and every output primary key. -/
theorem compute_transform_schema_keys (ipks opks : List (List String))
    (hi : ipks ≠ []) (ho : opks ≠ []) :
    (computeTransformSchema ipks opks none = none ↔
       ((¬ ∃ s, ∀ pk ∈ ipks, s ∈ pk) ∨ (¬ ∃ s, ∀ pk ∈ opks, s ∈ pk) ∨
        (¬ ∃ s, (∀ pk ∈ ipks, s ∈ pk) ∧ (∀ pk ∈ opks, s ∈ pk)))) ∧
    (∀ ks, computeTransformSchema ipks opks none = some ks →
       ∀ s, (s ∈ ks ↔ (∀ pk ∈ ipks, s ∈ pk) ∧ (∀ pk ∈ opks, s ∈ pk))) := by
  obtain ⟨x, xs, rfl⟩ := List.exists_cons_of_ne_nil hi
  obtain ⟨y, ys, rfl⟩ := List.exists_cons_of_ne_nil ho
  have hio : ∀ s : String,
      s ∈ interList (interAll (x :: xs)) (interAll (y :: ys)) ↔
        ((∀ pk ∈ x :: xs, s ∈ pk) ∧ (∀ pk ∈ y :: ys, s ∈ pk)) := by
    intro s
    rw [mem_interList, mem_interAll, mem_interAll]
    simp [List.forall_mem_cons]
  have hionil : interList (interAll (x :: xs)) (interAll (y :: ys)) = [] ↔
      ¬ ∃ s, (∀ pk ∈ x :: xs, s ∈ pk) ∧ (∀ pk ∈ y :: ys, s ∈ pk) := by
    rw [List.eq_nil_iff_forall_not_mem]
    constructor
    · rintro h ⟨s, hs⟩
      exact h s ((hio s).mpr hs)
    · intro h s hmem
      exact h ⟨s, (hio s).mp hmem⟩
  by_cases hI : interAll (x :: xs) = []
  · have hres : computeTransformSchema (x :: xs) (y :: ys) none = none := by
      simp [computeTransformSchema, hI]
    rw [hres]
    constructor
    · constructor
      · intro _
        exact Or.inl (interAll_eq_nil.mp hI)
      · intro _
        rfl
    · intro ks hks
      exact absurd hks (by simp)
  · by_cases hO : interAll (y :: ys) = []
    · have hres : computeTransformSchema (x :: xs) (y :: ys) none = none := by
        simp [computeTransformSchema, hI, hO]
      rw [hres]
      constructor
      · constructor
        · intro _
          exact Or.inr (Or.inl (interAll_eq_nil.mp hO))
        · intro _
          rfl
      · intro ks hks
        exact absurd hks (by simp)
    · by_cases hIO : interList (interAll (x :: xs)) (interAll (y :: ys)) = []
      · have hres : computeTransformSchema (x :: xs) (y :: ys) none = none := by
          simp [computeTransformSchema, hI, hO, hIO]
        rw [hres]
        constructor
        · constructor
          · intro _
            exact Or.inr (Or.inr (hionil.mp hIO))
          · intro _
            rfl
        · intro ks hks
          exact absurd hks (by simp)
      · have hres : computeTransformSchema (x :: xs) (y :: ys) none
            = some (interList (interAll (x :: xs)) (interAll (y :: ys))) := by
          simp [computeTransformSchema, hI, hO, hIO]
        rw [hres]
        constructor
        · constructor
          · intro h
            exact absurd h (by simp)
          · rintro (h | h | h)
            · exact absurd (interAll_eq_nil.mpr h) hI
            · exact absurd (interAll_eq_nil.mpr h) hO
            · exact absurd (hionil.mpr h) hIO
        · intro ks hks s
          cases hks
          exact hio s

/-- Witness for C9: one input with keys id and x, one input and one output
with key id; the computed transform keys contain exactly the common column. -/
theorem compute_transform_schema_keys_witness :
    "id" ∈ (["id"] : List String) ↔
      (∀ pk ∈ ([["id", "x"], ["id"]] : List (List String)), "id" ∈ pk) ∧
      (∀ pk ∈ ([["id"]] : List (List String)), "id" ∈ pk) :=
  (compute_transform_schema_keys [["id", "x"], ["id"]] [["id"]]
      (by decide) (by decide)).2 ["id"] rfl "id"

/-- Claim C10 (amended): a read-only filedir store rejects every non-empty
`insert_rows` and `update_rows` call with a failed assertion, before touching
any stored row; `delete_rows` fails the same assertion only when `enable_rm`
is enabled, and with `enable_rm` off (the constructor default) it returns
silently without deleting anything; in every case the stored rows are left
unchanged. -/
theorem filedir_readonly_amended (s : Filedir) (df : List (Nat × Int))
    (idx : List Nat) (h : s.readonly = true) :
    (df ≠ [] →
      insertRowsFiledir s df = Except.error "assertion failed: not readonly" ∧
      updateRowsFiledir s df = Except.error "assertion failed: not readonly") ∧
    (df = [] → insertRowsFiledir s df = Except.ok s) ∧
    (s.enable_rm = true →
      deleteRowsFiledir s idx = Except.error "assertion failed: not readonly") ∧
    (s.enable_rm = false → deleteRowsFiledir s idx = Except.ok s) ∧
    (∀ s2, insertRowsFiledir s df = Except.ok s2 → s2 = s) ∧
    (∀ s2, deleteRowsFiledir s idx = Except.ok s2 → s2 = s) := by
  refine ⟨?_, ?_, ?_, ?_, ?_, ?_⟩
  · intro hdf
    have hne : df.isEmpty = false := by
      cases df with
      | nil => exact absurd rfl hdf
      | cons a l => rfl
    constructor <;> simp [insertRowsFiledir, updateRowsFiledir, hne, h]
  · intro hdf
    subst hdf
    simp [insertRowsFiledir]
  · intro hrm
    simp [deleteRowsFiledir, hrm, h]
  · intro hrm
    simp [deleteRowsFiledir, hrm]
  · intro s2 hs2
    by_cases hdf : df.isEmpty
    · simp [insertRowsFiledir, hdf] at hs2
      exact hs2.symm
    · simp [insertRowsFiledir, hdf, h] at hs2
  · intro s2 hs2
    cases hrm : s.enable_rm with
    | false =>
      simp [deleteRowsFiledir, hrm] at hs2
      exact hs2.symm
    | true =>
      simp [deleteRowsFiledir, hrm, h] at hs2

/-- Witness for C10 (amended): a read-only store with `enable_rm` enabled
rejects a non-empty insert and a delete. -/
theorem filedir_readonly_amended_witness :
    insertRowsFiledir ⟨true, true, [(0, 5)]⟩ [(1, 6)]
        = Except.error "assertion failed: not readonly" ∧
    deleteRowsFiledir ⟨true, true, [(0, 5)]⟩ [0]
        = Except.error "assertion failed: not readonly" :=
  ⟨((filedir_readonly_amended ⟨true, true, [(0, 5)]⟩ [(1, 6)] [0] rfl).1
      (by decide)).1,
   (filedir_readonly_amended ⟨true, true, [(0, 5)]⟩ [(1, 6)] [0] rfl).2.2.1 rfl⟩
